import Mathlib

/-!
Shallow embedding of `src/ethereum/blockchain/BREthereumLog.c` (breadwallet-core).

Bytes are modelled as `Nat` values; the C code's fixed-width arrays
(`BREthereumHash` 32 bytes, `BREthereumAddress` 20 bytes, `BREthereumLogTopic`
32 bytes) become wrappers around byte lists, with the fixed widths enforced by
`List.take` at the points where the C code copies or compares a fixed number of
bytes.  The `uint8_t dataCount` field is modelled as `Fin 256`, so storing a
length truncates it modulo 256 exactly as the C assignment does.

The C code fails on malformed wire input via `assert` (a process abort); this
is modelled by the `CResult.assertFail` constructor.  There is deliberately no
typed decode-error value: the source has no such path.
-/

namespace BREthereum

/-- A byte, modelled as `Nat`; fixed-width truncation is made explicit where
the C code performs it. -/
abbrev Byte := Nat

/-- External primitive `BREthereumHash`: a fixed 32-byte hash. -/
structure BREthereumHash where
  bytes : List Byte
deriving DecidableEq

/-- External primitive `BREthereumAddress`: a fixed 20-byte address. -/
structure BREthereumAddress where
  bytes : List Byte
deriving DecidableEq

/-- `BREthereumLogTopic`: a fixed 32-byte topic value. -/
structure BREthereumLogTopic where
  bytes : List Byte
deriving DecidableEq

/-- The module-level zero-initialized sentinel `static BREthereumLogTopic empty`. -/
def empty : BREthereumLogTopic := ⟨List.replicate 32 0⟩

/-- The module-level zero-initialized sentinel `static BREthereumLogTopic emptyTopic`,
returned by `logGetTopic` for an out-of-range index. -/
def emptyTopic : BREthereumLogTopic := ⟨List.replicate 32 0⟩

/-- The all-zero 32-byte hash: the value of a `calloc`-zeroed `BREthereumHash` field. -/
def emptyHash : BREthereumHash := ⟨List.replicate 32 0⟩

/-- `logTopicCreateAddress`: start from `empty` (32 zero bytes) and copy the
address's 20 bytes into the trailing 20-byte region. -/
def logTopicCreateAddress (raw : BREthereumAddress) : BREthereumLogTopic :=
  ⟨empty.bytes.take 12 ++ raw.bytes.take 20⟩

/-- `logTopicMatchesAddressBool`: `memcmp` of the leading 12 bytes against the
zero sentinel, and of the trailing 20 bytes against the address. -/
def logTopicMatchesAddressBool (topic : BREthereumLogTopic)
    (address : BREthereumAddress) : Bool :=
  decide (topic.bytes.take 12 = empty.bytes.take 12) &&
  decide ((topic.bytes.drop 12).take 20 = address.bytes.take 20)

/-- `logTopicMatchesAddress` (`BREthereumBoolean` modelled as `Bool`). -/
def logTopicMatchesAddress (topic : BREthereumLogTopic)
    (address : BREthereumAddress) : Bool :=
  logTopicMatchesAddressBool topic address

/-- `logTopicAsAddress`: copy the trailing 20 bytes, with no validation. -/
def logTopicAsAddress (topic : BREthereumLogTopic) : BREthereumAddress :=
  ⟨(topic.bytes.drop 12).take 20⟩

/-- Modelled from the spec: external `addressEqual` is exact equality of the
20-byte address contents (§6, Address: 20-byte fixed, equality). -/
def addressEqual (a1 a2 : BREthereumAddress) : Bool :=
  decide (a1.bytes.take 20 = a2.bytes.take 20)

/-- An RLP item (the external coder's tree shape): a byte string or a list. -/
inductive BRRlpItem where
  | bytes : List Byte → BRRlpItem
  | list : List BRRlpItem → BRRlpItem

/-- Result of a C computation that can die on a failed `assert` (process
abort).  There is no typed error constructor because the embedded code has no
typed error path: every failure is an assertion abort. -/
inductive CResult (α : Type) where
  | ok : α → CResult α
  | assertFail : CResult α
deriving DecidableEq

/-- Sequencing of abort-able computations. -/
def CResult.bind {α β : Type} : CResult α → (α → CResult β) → CResult β
  | .ok a, f => f a
  | .assertFail, _ => .assertFail

/-- Modelled from the spec: external `rlpEncodeItemBytes` encodes `count`
bytes from a buffer as one RLP byte-string item (§4.4). -/
def rlpEncodeItemBytes (bytes : List Byte) (count : Nat) : BRRlpItem :=
  .bytes (bytes.take count)

/-- Modelled from the spec: external `rlpDecodeItemBytes` yields the byte
string of a byte-string item and rejects (asserts on) a list item (§4.4, §7). -/
def rlpDecodeItemBytes (item : BRRlpItem) : CResult (List Byte) :=
  match item with
  | .bytes data => .ok data
  | .list _ => .assertFail

/-- Modelled from the spec: external `rlpEncodeListItems` wraps the items as
one RLP list item (§4.4). -/
def rlpEncodeListItems (items : List BRRlpItem) : BRRlpItem :=
  .list items

/-- Modelled from the spec: external `rlpDecodeList` yields a list item's
children and rejects (asserts on) a byte-string item (§4.4, §7). -/
def rlpDecodeList (item : BRRlpItem) : CResult (List BRRlpItem) :=
  match item with
  | .list items => .ok items
  | .bytes _ => .assertFail

/-- Modelled from the spec: external `addressRlpEncode` encodes an address as
a 20-byte binary string item (§4.4). -/
def addressRlpEncode (address : BREthereumAddress) : BRRlpItem :=
  .bytes (address.bytes.take 20)

/-- Modelled from the spec: external `addressRlpDecode` requires a byte-string
item of exactly 20 bytes and fails otherwise (§4.4, §7 wrong fixed-length
field size). -/
def addressRlpDecode (item : BRRlpItem) : CResult BREthereumAddress :=
  CResult.bind (rlpDecodeItemBytes item) fun data =>
    if data.length = 20 then .ok ⟨data⟩ else .assertFail

/-- `logTopicRlpDecodeItem`: decode the bytes, `assert (32 == data.bytesCount)`,
copy 32 bytes. -/
def logTopicRlpDecodeItem (item : BRRlpItem) : CResult BREthereumLogTopic :=
  CResult.bind (rlpDecodeItemBytes item) fun data =>
    if data.length = 32 then .ok ⟨data⟩ else .assertFail

/-- `logTopicRlpEncodeItem`: encode the topic's 32 bytes as one byte-string item. -/
def logTopicRlpEncodeItem (topic : BREthereumLogTopic) : BRRlpItem :=
  rlpEncodeItemBytes topic.bytes 32

/-- Modelled from the spec: `BREthereumLogStatus` (declared in the header, not
in this slice) is the tagged variant of §3 — `Pending {transaction_hash,
receipt_index}` or `Included {block_hash, block_number, transaction_hash,
transaction_index, receipt_index}`. -/
inductive BREthereumLogStatus where
  | pending (transactionHash : BREthereumHash) (transactionReceiptIndex : Nat)
  | included (blockHash : BREthereumHash) (blockNumber : Nat)
      (transactionHash : BREthereumHash) (transactionIndex : Nat)
      (transactionReceiptIndex : Nat)
deriving DecidableEq

/-- Modelled from the spec: the status value of a `calloc`-zeroed log record —
tag value 0 is the Pending variant, with all payload bytes zero. -/
def zeroLogStatus : BREthereumLogStatus := .pending emptyHash 0

/-- Modelled from the spec: `logStatusCreate(LOG_STATUS_PENDING, hash, index)`
is `create_pending` of §4.2, constructing the Pending variant. -/
def logStatusCreate (transactionHash : BREthereumHash)
    (transactionReceiptIndex : Nat) : BREthereumLogStatus :=
  .pending transactionHash transactionReceiptIndex

/-- Modelled from the spec: `logStatusCreateHash` is the pure, value-sensitive
identity-hash function of the pair `(transaction_hash, receipt_index)` (§4.2);
the concrete combining function is abstracted as an injective pairing of the
two inputs. -/
def logStatusCreateHash (status : BREthereumLogStatus) : BREthereumHash :=
  match status with
  | .pending transactionHash transactionReceiptIndex =>
      ⟨transactionReceiptIndex :: transactionHash.bytes⟩
  | .included _ _ transactionHash _ transactionReceiptIndex =>
      ⟨transactionReceiptIndex :: transactionHash.bytes⟩

/-- `struct BREthereumLogRecord`: identity hash first (BRSet key), then the
logger's address, the ordered topics, the data buffer with its `uint8_t`
length field, and the status. -/
structure BREthereumLogRecord where
  hash : BREthereumHash
  address : BREthereumAddress
  topics : List BREthereumLogTopic
  data : List Byte
  dataCount : Fin 256
  status : BREthereumLogStatus
deriving DecidableEq

abbrev BREthereumLog := BREthereumLogRecord

/-- `logInitializeStatus`: set the status to a fresh Pending and derive the
identity hash from it. -/
def logInitializeStatus (log : BREthereumLog) (transactionHash : BREthereumHash)
    (transactionReceiptIndex : Nat) : BREthereumLog :=
  let status := logStatusCreate transactionHash transactionReceiptIndex
  { log with status := status, hash := logStatusCreateHash status }

/-- `logGetStatus`. -/
def logGetStatus (log : BREthereumLog) : BREthereumLogStatus :=
  log.status

/-- `logGetHash`. -/
def logGetHash (log : BREthereumLog) : BREthereumHash :=
  log.hash

/-- `logGetAddress`. -/
def logGetAddress (log : BREthereumLog) : BREthereumAddress :=
  log.address

/-- `logHasAddress`: `addressEqual(log->address, address)`. -/
def logHasAddress (log : BREthereumLog) (address : BREthereumAddress) : Bool :=
  addressEqual log.address address

/-- `logGetTopicsCount`. -/
def logGetTopicsCount (log : BREthereumLog) : Nat :=
  log.topics.length

/-- `logGetTopic`: the stored topic when the index is in range, the zero
`emptyTopic` sentinel otherwise. -/
def logGetTopic (log : BREthereumLog) (index : Nat) : BREthereumLogTopic :=
  if h : index < log.topics.length then log.topics.get ⟨index, h⟩ else emptyTopic

/-- `logGetData`: an owned copy of `dataCount` bytes of the data buffer. -/
def logGetData (log : BREthereumLog) : List Byte :=
  log.data.take log.dataCount.val

/-- `logMatchesAddress`: OR the per-topic structural match over all topics;
when `topicsOnly` is false, also OR in `logHasAddress`. -/
def logMatchesAddress (log : BREthereumLog) (address : BREthereumAddress)
    (topicsOnly : Bool) : Bool :=
  let m := log.topics.foldl (fun m t => m || logTopicMatchesAddressBool t address) false
  if topicsOnly then m else m || logHasAddress log address

/-- `logExtractIncluded`: when the status is Included, write `blockHash` and
`blockNumber` through the out-pointers and return 1; otherwise return 0.  The
out-parameters-plus-flag protocol is modelled as an `Option` of the pair. -/
def logExtractIncluded (log : BREthereumLog) : Option (BREthereumHash × Nat) :=
  match log.status with
  | .included blockHash blockNumber _ _ _ => some (blockHash, blockNumber)
  | .pending _ _ => none

/-- Modelled from the spec: external `hashSetValue` produces a set-hash value
from the 32 hash bytes (§6, Hash: equality + hashing); modelled as a
deterministic fold of the bytes. -/
def hashSetValue (hash : BREthereumHash) : Nat :=
  hash.bytes.foldl (fun acc b => (acc * 31 + b) % (2 ^ 64)) 0

/-- Modelled from the spec: external `hashSetEqual` is equality of the 32 hash
bytes. -/
def hashSetEqual (h1 h2 : BREthereumHash) : Bool :=
  decide (h1 = h2)

/-- `logHashValue`: set-hash of the log's identity hash field. -/
def logHashValue (log : BREthereumLog) : Nat :=
  hashSetValue log.hash

/-- `logHashEqual`: equality of the two logs' identity hash fields. -/
def logHashEqual (l1 l2 : BREthereumLog) : Bool :=
  hashSetEqual l1.hash l2.hash

/-- `logTopicsRlpEncodeItem`: encode each topic and wrap as a list item. -/
def logTopicsRlpEncodeItem (log : BREthereumLog) : BRRlpItem :=
  rlpEncodeListItems (log.topics.map logTopicRlpEncodeItem)

/-- Decode each child of a topics list in order (the loop body of
`logTopicsRlpDecodeItem`). -/
def logTopicsRlpDecodeItems (items : List BRRlpItem) : CResult (List BREthereumLogTopic) :=
  match items with
  | [] => .ok []
  | i :: rest =>
      CResult.bind (logTopicRlpDecodeItem i) fun topic =>
      CResult.bind (logTopicsRlpDecodeItems rest) fun topics =>
      .ok (topic :: topics)

/-- `logTopicsRlpDecodeItem`: decode the list item, then decode each child
topic in order. -/
def logTopicsRlpDecodeItem (item : BRRlpItem) : CResult (List BREthereumLogTopic) :=
  CResult.bind (rlpDecodeList item) logTopicsRlpDecodeItems

/-- `logRlpDecodeItem`: `calloc` a zeroed record, decode the list item,
`assert (3 == itemsCount)`, then decode address, topics and data by position.
The `uint8_t dataCount` assignment truncates the byte count modulo 256. -/
def logRlpDecodeItem (item : BRRlpItem) : CResult BREthereumLog :=
  CResult.bind (rlpDecodeList item) fun items =>
  match items with
  | [i0, i1, i2] =>
      CResult.bind (addressRlpDecode i0) fun address =>
      CResult.bind (logTopicsRlpDecodeItem i1) fun topics =>
      CResult.bind (rlpDecodeItemBytes i2) fun data =>
      .ok { hash := emptyHash
          , address := address
          , topics := topics
          , data := data
          , dataCount := ⟨data.length % 256, Nat.mod_lt _ (by decide)⟩
          , status := zeroLogStatus }
  | _ => .assertFail

/-- `logRlpEncodeItem`: the 3-element wire list
`[address, topics, data(dataCount bytes)]`. -/
def logRlpEncodeItem (log : BREthereumLog) : BRRlpItem :=
  rlpEncodeListItems
    [ addressRlpEncode log.address
    , logTopicsRlpEncodeItem log
    , rlpEncodeItemBytes log.data log.dataCount.val ]

/-- `logCopy`: serialize to the wire item and decode it back. -/
def logCopy (log : BREthereumLog) : CResult BREthereumLog :=
  logRlpDecodeItem (logRlpEncodeItem log)

/-- Modelled from the spec: the `InvalidStatusTransition` error value of §7. -/
inductive BREthereumLogStatusError where
  | invalidStatusTransition
deriving DecidableEq

/-- Modelled from the spec: `transition_to_included` (§4.2) — valid only when
Pending; produces Included carrying the same `transaction_hash` and
`receipt_index`; error when already Included. -/
def logStatusTransitionToIncluded (status : BREthereumLogStatus)
    (blockHash : BREthereumHash) (blockNumber : Nat) (transactionIndex : Nat) :
    Except BREthereumLogStatusError BREthereumLogStatus :=
  match status with
  | .pending transactionHash transactionReceiptIndex =>
      .ok (.included blockHash blockNumber transactionHash transactionIndex
            transactionReceiptIndex)
  | .included _ _ _ _ _ => .error .invalidStatusTransition

/-- Modelled from the spec: `revert_to_pending` (§4.2) — valid only when
Included; produces Pending with the original `transaction_hash` and
`receipt_index`; error when already Pending. -/
def logStatusRevertToPending (status : BREthereumLogStatus) :
    Except BREthereumLogStatusError BREthereumLogStatus :=
  match status with
  | .included _ _ transactionHash _ transactionReceiptIndex =>
      .ok (.pending transactionHash transactionReceiptIndex)
  | .pending _ _ => .error .invalidStatusTransition

/-- Modelled from the spec: the log-level Pending→Included transition replaces
only the `status` field (§5: status is the only mutable field; §4.2). -/
def logTransitionToIncluded (log : BREthereumLog) (blockHash : BREthereumHash)
    (blockNumber : Nat) (transactionIndex : Nat) :
    Except BREthereumLogStatusError BREthereumLog :=
  match logStatusTransitionToIncluded log.status blockHash blockNumber transactionIndex with
  | .ok status => .ok { log with status := status }
  | .error e => .error e

/-- Modelled from the spec: the log-level revert replaces only the `status`
field (§5, §4.2). -/
def logRevertToPending (log : BREthereumLog) :
    Except BREthereumLogStatusError BREthereumLog :=
  match logStatusRevertToPending log.status with
  | .ok status => .ok { log with status := status }
  | .error e => .error e

/-! ## Helper lemmas -/

lemma CResult.bind_eq_ok {α β : Type} {x : CResult α} {f : α → CResult β} {b : β}
    (h : CResult.bind x f = .ok b) : ∃ a, x = .ok a ∧ f a = .ok b := by
  cases x with
  | ok a => exact ⟨a, rfl, h⟩
  | assertFail => exact CResult.noConfusion h

lemma logTopicsRlpDecodeItems_encode (ts : List BREthereumLogTopic)
    (h : ∀ t ∈ ts, t.bytes.length = 32) :
    logTopicsRlpDecodeItems (ts.map logTopicRlpEncodeItem) = .ok ts := by
  induction ts with
  | nil => rfl
  | cons t ts ih =>
    have ht : t.bytes.take 32 = t.bytes := by
      rw [← h t (by simp)]; exact List.take_length _
    simp [logTopicsRlpDecodeItems, logTopicRlpEncodeItem, rlpEncodeItemBytes,
      logTopicRlpDecodeItem, rlpDecodeItemBytes, CResult.bind, ht, h t (by simp),
      ih (fun x hx => h x (by simp [hx]))]

lemma logRlpDecodeItem_encodeItem (log : BREthereumLog)
    (haddr : log.address.bytes.length = 20)
    (htopics : ∀ t ∈ log.topics, t.bytes.length = 32)
    (hdata : log.dataCount.val = log.data.length) :
    logRlpDecodeItem (logRlpEncodeItem log) =
      .ok { log with hash := emptyHash, status := zeroLogStatus } := by
  have h1 : log.address.bytes.take 20 = log.address.bytes := by
    rw [← haddr]; exact List.take_length _
  have h2 : log.data.take log.dataCount.val = log.data := by
    rw [hdata]; exact List.take_length _
  have h3 : log.data.length % 256 = log.dataCount.val := by
    rw [← hdata]; exact Nat.mod_eq_of_lt log.dataCount.isLt
  simp [logRlpDecodeItem, logRlpEncodeItem, rlpEncodeListItems, rlpDecodeList,
    CResult.bind, addressRlpEncode, addressRlpDecode, rlpDecodeItemBytes,
    rlpEncodeItemBytes, logTopicsRlpDecodeItem, logTopicsRlpEncodeItem,
    h1, h2, h3, haddr, logTopicsRlpDecodeItems_encode log.topics htopics,
    Fin.ext_iff]

lemma logRlpDecodeItem_ok_shape (item : BRRlpItem) (log : BREthereumLog)
    (h : logRlpDecodeItem item = .ok log) :
    log.hash = emptyHash ∧ log.status = zeroLogStatus ∧
      log.dataCount.val = log.data.length % 256 := by
  cases item with
  | bytes b => exact CResult.noConfusion h
  | list items =>
    rcases items with _ | ⟨i0, _ | ⟨i1, _ | ⟨i2, _ | ⟨i3, rest⟩⟩⟩⟩ <;>
      simp only [logRlpDecodeItem, rlpDecodeList, CResult.bind] at h
    · exact CResult.noConfusion h
    · exact CResult.noConfusion h
    · exact CResult.noConfusion h
    · obtain ⟨address, ha, h⟩ := CResult.bind_eq_ok h
      obtain ⟨topics, htp, h⟩ := CResult.bind_eq_ok h
      obtain ⟨data, hd, h⟩ := CResult.bind_eq_ok h
      cases h
      exact ⟨rfl, rfl, rfl⟩
    · exact CResult.noConfusion h

lemma foldl_or_eq_any {α : Type} (l : List α) (f : α → Bool) (b : Bool) :
    l.foldl (fun m t => m || f t) b = (b || l.any f) := by
  induction l generalizing b with
  | nil => simp
  | cons x xs ih => simp [List.foldl_cons, ih, Bool.or_assoc]

/-! ## Claim theorems -/

/-- Claim C1: RLP round-trip law — for every Log (with its fixed-width address
and topic fields well-formed and the data-length field consistent with the
data buffer), decoding the encoding yields a Log with identical address,
topics sequence (same order and count), and data bytes; status and identity
are excluded from this law. -/
theorem c1_rlp_round_trip (log : BREthereumLog)
    (haddr : log.address.bytes.length = 20)
    (htopics : ∀ t ∈ log.topics, t.bytes.length = 32)
    (hdata : log.dataCount.val = log.data.length) :
    ∃ log', logRlpDecodeItem (logRlpEncodeItem log) = .ok log' ∧
      log'.address = log.address ∧ log'.topics = log.topics ∧
      log'.data = log.data := by
  exact ⟨_, logRlpDecodeItem_encodeItem log haddr htopics hdata, rfl, rfl, rfl⟩

/-- Witness for C1 at a concrete Log with two topics and three data bytes. -/
theorem c1_rlp_round_trip_witness :
    ∃ log', logRlpDecodeItem (logRlpEncodeItem
      { hash := emptyHash
      , address := ⟨List.replicate 20 1⟩
      , topics := [⟨List.replicate 32 2⟩, ⟨List.replicate 32 3⟩]
      , data := [4, 5, 6]
      , dataCount := ⟨3, by decide⟩
      , status := zeroLogStatus }) = .ok log' ∧
      log'.address = ⟨List.replicate 20 1⟩ ∧
      log'.topics = [⟨List.replicate 32 2⟩, ⟨List.replicate 32 3⟩] ∧
      log'.data = [4, 5, 6] :=
  c1_rlp_round_trip _ (by decide) (by decide) (by decide)

/-- Claim C2 (code behaviour at the claimed failing input): decoding a wire
item whose top-level list has 2 elements trips `assert (3 == itemsCount)` — a
process abort — and returns no Log; the code has no typed decode-error path. -/
theorem c2_decode_two_elements_assert_aborts :
    logRlpDecodeItem (.list [.bytes (List.replicate 20 1), .bytes []]) =
      .assertFail := rfl

/-! ## Concrete sample values used by witnesses and counterexamples -/

def txHashH : BREthereumHash := ⟨List.replicate 32 7⟩

def blockHashB : BREthereumHash := ⟨List.replicate 32 9⟩

def sampleAddress : BREthereumAddress := ⟨List.replicate 20 1⟩

def includedLogA : BREthereumLog :=
  { hash := emptyHash, address := sampleAddress, topics := [], data := []
  , dataCount := ⟨0, by decide⟩, status := .included blockHashB 100 txHashH 5 2 }

def includedLogB : BREthereumLog :=
  { includedLogA with status := .included blockHashB 100 txHashH 9 7 }

def pendingLogP : BREthereumLog :=
  { includedLogA with status := .pending txHashH 2 }

def c4base : BREthereumLog :=
  { hash := emptyHash, address := sampleAddress, topics := [], data := []
  , dataCount := ⟨0, by decide⟩, status := zeroLogStatus }

def c4init : BREthereumLog := logInitializeStatus c4base txHashH 2

def c4incl : BREthereumLog := { c4init with status := .included blockHashB 100 txHashH 5 2 }

def c4rev : BREthereumLog := { c4init with status := .pending txHashH 2 }

def c5item : BRRlpItem :=
  .list [.bytes (List.replicate 20 1), .list [], .bytes (List.replicate 260 5)]

def c5log : BREthereumLog :=
  { hash := emptyHash, address := ⟨List.replicate 20 1⟩, topics := []
  , data := List.replicate 260 5, dataCount := ⟨4, by decide⟩, status := zeroLogStatus }

/-- Claim C3 counterexample: `logExtractIncluded` produces only the pair
(block_hash, block_number) — two Included logs whose transaction_index and
receipt_index differ (5, 2 versus 9, 7) give identical extraction results, so
the claimed transaction_index and receipt_index components are not returned by
this operation. -/
theorem c3_extract_counterexample :
    logExtractIncluded includedLogA = some (blockHashB, 100) ∧
    logExtractIncluded includedLogB = some (blockHashB, 100) ∧
    includedLogA.status = .included blockHashB 100 txHashH 5 2 ∧
    includedLogB.status = .included blockHashB 100 txHashH 9 7 :=
  ⟨rfl, rfl, rfl, rfl⟩

/-- Claim C3 (amended): `logExtractIncluded` returns the included provenance
pair (block_hash, block_number) exactly when the Log's status is Included —
transaction_index and receipt_index are not part of its output — and when the
status is Pending it indicates absence, which is not an error. -/
theorem c3_extract_included (log : BREthereumLog) :
    (∀ bh bn th ti ri, log.status = .included bh bn th ti ri →
        logExtractIncluded log = some (bh, bn)) ∧
    (∀ th ri, log.status = .pending th ri → logExtractIncluded log = none) := by
  constructor
  · intro bh bn th ti ri h
    simp [logExtractIncluded, h]
  · intro th ri h
    simp [logExtractIncluded, h]

/-- Witness for C3 (amended) at a concrete Included log and a concrete Pending
log. -/
theorem c3_extract_included_witness :
    logExtractIncluded includedLogA = some (blockHashB, 100) ∧
    logExtractIncluded pendingLogP = none :=
  ⟨(c3_extract_included includedLogA).1 blockHashB 100 txHashH 5 2 rfl,
   (c3_extract_included pendingLogP).2 txHashH 2 rfl⟩

/-- Claim C4: identity stability — the identity hash is derived at
`logInitializeStatus` from the pair (transaction_hash, receipt_index); a
Pending→Included transition and a subsequent revert to Pending leave it
unchanged, and `logGetHash` returns the originally derived value throughout. -/
theorem c4_identity_stable (log : BREthereumLog) (txHash : BREthereumHash)
    (idx : Nat) (blockHash : BREthereumHash) (blockNumber txIndex : Nat) :
    logGetHash (logInitializeStatus log txHash idx) =
      logStatusCreateHash (logStatusCreate txHash idx) ∧
    ∀ log1, logTransitionToIncluded (logInitializeStatus log txHash idx)
        blockHash blockNumber txIndex = .ok log1 →
      logGetHash log1 = logGetHash (logInitializeStatus log txHash idx) ∧
      ∀ log2, logRevertToPending log1 = .ok log2 →
        logGetHash log2 = logGetHash (logInitializeStatus log txHash idx) := by
  constructor
  · rfl
  · intro log1 h1
    have e1 : logTransitionToIncluded (logInitializeStatus log txHash idx)
        blockHash blockNumber txIndex =
        .ok { logInitializeStatus log txHash idx with
              status := .included blockHash blockNumber txHash txIndex idx } := rfl
    rw [e1] at h1
    injection h1 with h1
    subst h1
    constructor
    · rfl
    · intro log2 h2
      injection h2 with h2
      subst h2
      rfl

/-- Witness for C4 at a concrete base log with transaction hash `txHashH` and
receipt index 2, transitioned into block `blockHashB` (number 100, index 5)
and reverted. -/
theorem c4_identity_stable_witness :
    logGetHash c4init = logStatusCreateHash (logStatusCreate txHashH 2) ∧
    logGetHash c4incl = logGetHash c4init ∧
    logGetHash c4rev = logGetHash c4init := by
  obtain ⟨ha, hb⟩ := c4_identity_stable c4base txHashH 2 blockHashB 100 5
  obtain ⟨hc, hd⟩ := hb c4incl rfl
  exact ⟨ha, hc, hd c4rev rfl⟩

/-- Claim C5: the Log's data-length field is a single byte — every Log's
stored data count is at most 255, and RLP decoding stores the wire data
field's byte length reduced to its 8-bit representation (modulo 256). -/
theorem c5_data_count_single_byte :
    (∀ log : BREthereumLog, log.dataCount.val ≤ 255) ∧
    (∀ item log', logRlpDecodeItem item = .ok log' →
        log'.dataCount.val = log'.data.length % 256) := by
  constructor
  · intro log
    exact Nat.lt_succ_iff.mp log.dataCount.isLt
  · intro item log' h
    exact (logRlpDecodeItem_ok_shape item log' h).2.2

set_option maxRecDepth 4000 in
/-- Witness for C5: a 260-byte wire data field decodes to a Log whose stored
data count is 260 mod 256 = 4. -/
theorem c5_data_count_single_byte_witness :
    logRlpDecodeItem c5item = .ok c5log ∧
    c5log.dataCount.val = c5log.data.length % 256 :=
  ⟨by decide, c5_data_count_single_byte.2 c5item c5log (by decide)⟩

def c6sample : BREthereumLog :=
  { hash := ⟨[1]⟩, address := ⟨List.replicate 20 8⟩
  , topics := [⟨List.replicate 32 4⟩], data := [9, 9]
  , dataCount := ⟨2, by decide⟩, status := .pending txHashH 3 }

/-- Claim C6: clone-via-serialize — `logCopy` equals decoding the canonical
RLP encoding of the Log, not a structural field-by-field duplication: the
clone's address, topics and data equal the original's, while its identity
hash and status are the zeroed values of a Log fresh off the wire. -/
theorem c6_clone_via_serialize (log : BREthereumLog)
    (haddr : log.address.bytes.length = 20)
    (htopics : ∀ t ∈ log.topics, t.bytes.length = 32)
    (hdata : log.dataCount.val = log.data.length) :
    logCopy log = logRlpDecodeItem (logRlpEncodeItem log) ∧
    ∃ copy, logCopy log = .ok copy ∧
      copy.address = log.address ∧ copy.topics = log.topics ∧
      copy.data = log.data ∧ copy.hash = emptyHash ∧
      copy.status = zeroLogStatus := by
  refine ⟨rfl, ?_⟩
  exact ⟨_, logRlpDecodeItem_encodeItem log haddr htopics hdata,
    rfl, rfl, rfl, rfl, rfl⟩

/-- Witness for C6 at a concrete Log with a non-zero hash and a Pending
status, whose clone carries the zeroed hash and status. -/
theorem c6_clone_via_serialize_witness :
    logCopy c6sample = logRlpDecodeItem (logRlpEncodeItem c6sample) ∧
    ∃ copy, logCopy c6sample = .ok copy ∧
      copy.address = c6sample.address ∧ copy.topics = c6sample.topics ∧
      copy.data = c6sample.data ∧ copy.hash = emptyHash ∧
      copy.status = zeroLogStatus :=
  c6_clone_via_serialize c6sample (by decide) (by decide) (by decide)

def c7addr2 : BREthereumAddress := ⟨2 :: List.replicate 19 1⟩

/-- Claim C7: strict topic-address match — for a 32-byte topic and 20-byte
addresses, `logTopicMatchesAddress` holds iff the topic's leading 12 bytes are
all zero and its trailing 20 bytes equal the address; it holds of
`logTopicCreateAddress addr` and `addr`, and fails whenever the probed address
differs at all. -/
theorem c7_topic_address_match (topic : BREthereumLogTopic)
    (addr addr2 : BREthereumAddress)
    (ht : topic.bytes.length = 32) (ha : addr.bytes.length = 20)
    (ha2 : addr2.bytes.length = 20) :
    (logTopicMatchesAddress topic addr = true ↔
      (topic.bytes.take 12 = List.replicate 12 0 ∧
       topic.bytes.drop 12 = addr.bytes)) ∧
    logTopicMatchesAddress (logTopicCreateAddress addr) addr = true ∧
    (addr ≠ addr2 →
      logTopicMatchesAddress (logTopicCreateAddress addr) addr2 = false) := by
  have he : empty.bytes.take 12 = List.replicate 12 0 := by decide
  have hdrop : (topic.bytes.drop 12).take 20 = topic.bytes.drop 12 := by
    have hlen : (topic.bytes.drop 12).length = 20 := by
      simp [List.length_drop, ht]
    rw [← hlen]
    exact List.take_length _
  have haT : addr.bytes.take 20 = addr.bytes := by
    rw [← ha]; exact List.take_length _
  have ha2T : addr2.bytes.take 20 = addr2.bytes := by
    rw [← ha2]; exact List.take_length _
  have hcreate : (logTopicCreateAddress addr).bytes =
      List.replicate 12 0 ++ addr.bytes := by
    simp [logTopicCreateAddress, he, haT]
  refine ⟨?_, ?_, ?_⟩
  · simp [logTopicMatchesAddress, logTopicMatchesAddressBool, he, hdrop, haT,
      Bool.and_eq_true, decide_eq_true_iff]
  · simp [logTopicMatchesAddress, logTopicMatchesAddressBool, he, hcreate, haT,
      List.take_append_eq_append_take, List.drop_append_eq_append_drop]
  · intro hne
    have hb : addr.bytes ≠ addr2.bytes := by
      intro hb
      exact hne (by cases addr; cases addr2; simpa using hb)
    simp [logTopicMatchesAddress, logTopicMatchesAddressBool, he, hcreate, haT,
      ha2T, List.take_append_eq_append_take, List.drop_append_eq_append_drop, hb]

/-- Witness for C7 at `sampleAddress` and an address differing from it in the
first byte. -/
theorem c7_topic_address_match_witness :
    (logTopicMatchesAddress (logTopicCreateAddress sampleAddress) sampleAddress = true ↔
      ((logTopicCreateAddress sampleAddress).bytes.take 12 = List.replicate 12 0 ∧
       (logTopicCreateAddress sampleAddress).bytes.drop 12 = sampleAddress.bytes)) ∧
    logTopicMatchesAddress (logTopicCreateAddress sampleAddress) sampleAddress = true ∧
    logTopicMatchesAddress (logTopicCreateAddress sampleAddress) c7addr2 = false :=
  ⟨(c7_topic_address_match (logTopicCreateAddress sampleAddress) sampleAddress
      c7addr2 (by decide) (by decide) (by decide)).1,
   (c7_topic_address_match (logTopicCreateAddress sampleAddress) sampleAddress
      c7addr2 (by decide) (by decide) (by decide)).2.1,
   (c7_topic_address_match (logTopicCreateAddress sampleAddress) sampleAddress
      c7addr2 (by decide) (by decide) (by decide)).2.2 (by decide)⟩

/-- Claim C8: `logMatchesAddress` is true exactly when some topic of the log
structurally matches the address (leading 12 bytes zero, trailing 20 bytes
equal), or `topicsOnly` is false and the log's own address equals it
(`logHasAddress`). -/
theorem c8_log_matches_address (log : BREthereumLog) (addr : BREthereumAddress)
    (topicsOnly : Bool) :
    logMatchesAddress log addr topicsOnly = true ↔
      ((∃ t ∈ log.topics, t.bytes.take 12 = List.replicate 12 0 ∧
          (t.bytes.drop 12).take 20 = addr.bytes.take 20) ∨
       (topicsOnly = false ∧ logHasAddress log addr = true)) := by
  have he : empty.bytes.take 12 = List.replicate 12 0 := by decide
  cases topicsOnly with
  | true =>
    simp [logMatchesAddress, foldl_or_eq_any, List.any_eq_true,
      logTopicMatchesAddressBool, he, Bool.and_eq_true, decide_eq_true_iff]
  | false =>
    simp [logMatchesAddress, foldl_or_eq_any, List.any_eq_true,
      logTopicMatchesAddressBool, he, Bool.and_eq_true, Bool.or_eq_true,
      decide_eq_true_iff]

def c9log : BREthereumLog :=
  { hash := emptyHash, address := sampleAddress
  , topics := [⟨List.replicate 32 4⟩, ⟨List.replicate 32 5⟩], data := []
  , dataCount := ⟨0, by decide⟩, status := zeroLogStatus }

/-- Claim C9: `logGetTopic` returns the defined all-zero `emptyTopic` sentinel
for any index at or beyond the topic count — not an error — and the stored
topic at an in-range index. -/
theorem c9_topic_at (log : BREthereumLog) (index : Nat) :
    (log.topics.length ≤ index → logGetTopic log index = emptyTopic) ∧
    (∀ h : index < log.topics.length,
        logGetTopic log index = log.topics.get ⟨index, h⟩) ∧
    emptyTopic.bytes = List.replicate 32 0 := by
  refine ⟨?_, ?_, rfl⟩
  · intro h
    rw [logGetTopic, dif_neg (Nat.not_lt.mpr h)]
  · intro h
    rw [logGetTopic, dif_pos h]

/-- Witness for C9: at index 2 = topics count the sentinel is returned; at
index 1 the stored topic is returned. -/
theorem c9_topic_at_witness :
    logGetTopic c9log 2 = emptyTopic ∧
    logGetTopic c9log 1 = c9log.topics.get ⟨1, by decide⟩ ∧
    emptyTopic.bytes = List.replicate 32 0 :=
  ⟨(c9_topic_at c9log 2).1 (by decide),
   (c9_topic_at c9log 1).2.1 (by decide),
   (c9_topic_at c9log 2).2.2⟩

def c10item1 : BRRlpItem :=
  .list [.bytes (List.replicate 20 1), .list [], .bytes [1, 2]]

def c10item2 : BRRlpItem :=
  .list [.bytes (List.replicate 20 3), .list [.bytes (List.replicate 32 4)], .bytes []]

def c10log1 : BREthereumLog :=
  { hash := emptyHash, address := ⟨List.replicate 20 1⟩, topics := [], data := [1, 2]
  , dataCount := ⟨2, by decide⟩, status := zeroLogStatus }

def c10log2 : BREthereumLog :=
  { hash := emptyHash, address := ⟨List.replicate 20 3⟩
  , topics := [⟨List.replicate 32 4⟩], data := []
  , dataCount := ⟨0, by decide⟩, status := zeroLogStatus }

/-- Claim C10: every Log produced by RLP decoding carries the all-zero
identity hash and the zeroed status until `logInitializeStatus` is called, so
any two freshly decoded Logs — however much their addresses, topics or data
differ — satisfy `logHashEqual` and share the same `logHashValue`; a
deduplication set keyed before initialization cannot distinguish them. -/
theorem c10_decoded_logs_indistinguishable (i1 i2 : BRRlpItem)
    (l1 l2 : BREthereumLog)
    (h1 : logRlpDecodeItem i1 = .ok l1) (h2 : logRlpDecodeItem i2 = .ok l2) :
    l1.hash = emptyHash ∧ l1.status = zeroLogStatus ∧
    logHashEqual l1 l2 = true ∧ logHashValue l1 = logHashValue l2 := by
  obtain ⟨e1, s1, -⟩ := logRlpDecodeItem_ok_shape i1 l1 h1
  obtain ⟨e2, s2, -⟩ := logRlpDecodeItem_ok_shape i2 l2 h2
  refine ⟨e1, s1, ?_, ?_⟩
  · simp [logHashEqual, hashSetEqual, e1, e2]
  · simp [logHashValue, e1, e2]

/-- Witness for C10: two decoded Logs with different addresses, topics and
data are identified by the set hash and equality. -/
theorem c10_decoded_logs_indistinguishable_witness :
    logRlpDecodeItem c10item1 = .ok c10log1 ∧
    logRlpDecodeItem c10item2 = .ok c10log2 ∧
    (c10log1.hash = emptyHash ∧ c10log1.status = zeroLogStatus ∧
     logHashEqual c10log1 c10log2 = true ∧
     logHashValue c10log1 = logHashValue c10log2) :=
  ⟨by decide, by decide,
   c10_decoded_logs_indistinguishable c10item1 c10item2 c10log1 c10log2
     (by decide) (by decide)⟩

end BREthereum
